import Mathlib

/-!
# Note2MCQ — verification of the spec against the source

Shallow embedding of the state-management logic of the Note2MCQ
single-page application (src/types.ts, src/geminiService.ts, src/App.tsx,
src/ChatView.tsx, src/NoteUploader.tsx) together with theorems settling
the specification claims.

The external generative-AI service is modelled as an oracle parameter:
its (already JSON-parsed) reply is an input to the embedded functions,
exactly as the TypeScript code receives it from `ai.models.generateContent`.
Timestamps produced by `new Date()` / `Date.now()` are likewise passed in
as explicit string parameters.
-/

namespace Note2MCQ

/-- `Note` from src/types.ts.  `createdAt` is the ISO timestamp string the
code obtains from `new Date()`; `id` is `new Date().toISOString()`. -/
structure Note where
  id : String
  title : String
  content : String
  createdAt : String
  type : Bool -- true = 'text', false = 'image'; the claims never inspect it
  deriving Repr, DecidableEq

/-- `Question` from src/types.ts.  `correctAnswerIndex` is a JSON integer,
hence `Int` (the schema does not forbid negative values). -/
structure Question where
  question : String
  options : List String
  correctAnswerIndex : Int
  deriving Repr, DecidableEq

/-- Role of a chat message: 'user' or 'model'. -/
inductive Role where
  | user
  | model
  deriving Repr, DecidableEq

/-- `ChatMessage` from src/types.ts. -/
structure ChatMessage where
  id : String
  role : Role
  text : String
  deriving Repr, DecidableEq

/-- `Quiz` from src/types.ts (the fields `handleQuizComplete` sets). -/
structure Quiz where
  id : String
  questions : List Question
  createdAt : String
  score : Nat
  deriving Repr, DecidableEq

/-! ## src/geminiService.ts — generateQuizFromNotes -/

/-- One entry of the context blob:
`Note Title: ${note.title}\nContent:\n${note.content}`. -/
def noteBlock (n : Note) : String :=
  "Note Title: " ++ n.title ++ "\nContent:\n" ++ n.content

/-- `notes.map(...).join('\n\n---\n\n')` from `generateQuizFromNotes`. -/
def allNotesContent (notes : List Note) : String :=
  String.intercalate "\n\n---\n\n" (notes.map noteBlock)

/-- JavaScript `String.prototype.trim`: drop whitespace characters from
both ends (spelt out over the character list so that it evaluates). -/
def jsTrim (s : String) : String :=
  String.mk
    (((s.data.dropWhile Char.isWhitespace).reverse.dropWhile
        Char.isWhitespace).reverse)

/-- The outcome of the external call `ai.models.generateContent` plus
`JSON.parse`, as seen by the `try` block:
either the await/parse threw, or it produced a parsed object whose
`questions` field is absent (`none`) or a list of questions.  The schema
sent with the request constrains field names and primitive types only, so
a parsed reply carries an arbitrary `List Question`. -/
inductive SvcOutcome where
  | throws
  | parsed (questions : Option (List Question))
  deriving Repr, DecidableEq

/-- Error message of the fast-fail threshold check. -/
def notEnoughMsg : String :=
  "Not enough content to generate a quiz. Please add more notes."

/-- Error message thrown inside the `try` block when `result.questions`
is missing or empty. -/
def aiFailedMsg : String := "AI failed to generate quiz questions."

/-- Error message thrown by the `catch` handler. -/
def genericFailMsg : String :=
  "Failed to generate quiz from AI. The content might be too complex or the service is unavailable."

/-- Body of the `try` block of `generateQuizFromNotes`: call the service,
parse, reject a missing or empty `questions` array, otherwise return it. -/
def quizTryBody (svc : SvcOutcome) : Except String (List Question) :=
  match svc with
  | .throws => .error "service or JSON.parse threw"
  | .parsed none => .error aiFailedMsg
  | .parsed (some qs) =>
      if qs.length = 0 then .error aiFailedMsg else .ok qs

instance {ε α : Type} [DecidableEq ε] [DecidableEq α] :
    DecidableEq (Except ε α) := fun x y =>
  match x, y with
  | .ok a, .ok b =>
      if h : a = b then isTrue (by rw [h])
      else isFalse (by intro hh; cases hh; exact h rfl)
  | .ok _, .error _ => isFalse (by intro hh; cases hh)
  | .error _, .ok _ => isFalse (by intro hh; cases hh)
  | .error e, .error f =>
      if h : e = f then isTrue (by rw [h])
      else isFalse (by intro hh; cases hh; exact h rfl)

/-- Result of one call to `generateQuizFromNotes`: the returned value or
the thrown error message, plus whether the external service was invoked. -/
structure QuizCall where
  result : Except String (List Question)
  calledService : Bool
  deriving Repr

/-- `generateQuizFromNotes` from src/geminiService.ts.  The trimmed-length
precondition is checked before the `try`; any error thrown inside the
`try` block (including the "AI failed" one) is caught by the `catch` and
replaced with the generic failure message. -/
def generateQuizFromNotes (notes : List Note) (svc : SvcOutcome) : QuizCall :=
  if (jsTrim (allNotesContent notes)).length < 50 then
    ⟨.error notEnoughMsg, false⟩
  else
    match quizTryBody svc with
    | .ok qs => ⟨.ok qs, true⟩
    | .error _ => ⟨.error genericFailMsg, true⟩

/-! ## src/App.tsx — chat history, note store, quiz history -/

/-- `handleNewChatMessage` from src/App.tsx: find the first message with
the incoming id; if found, replace it in place, otherwise append. -/
def handleNewChatMessage (prev : List ChatMessage) (message : ChatMessage) :
    List ChatMessage :=
  match prev.findIdx? (fun m => m.id == message.id) with
  | some existingIndex => prev.set existingIndex message
  | none => prev ++ [message]

/-- `addNote` from src/App.tsx.  `time` is the wall-clock instant of the
call: the code uses `new Date().toISOString()` as the id and `new Date()`
as `createdAt`, both taken at that instant. -/
def addNote (prev : List Note) (time title content : String) (ty : Bool) :
    List Note :=
  prev ++ [⟨time, title, content, time, ty⟩]

/-- `deleteNote` from src/App.tsx: `notes.filter(note => note.id !== noteId)`. -/
def deleteNote (notes : List Note) (noteId : String) : List Note :=
  notes.filter (fun note => note.id != noteId)

/-- One UI-initiated mutation of the note store. -/
inductive NoteOp where
  | add (time title content : String) (ty : Bool)
  | delete (noteId : String)
  deriving Repr, DecidableEq

/-- Apply one note-store operation. -/
def applyNoteOp (store : List Note) : NoteOp → List Note
  | .add time title content ty => addNote store time title content ty
  | .delete noteId => deleteNote store noteId

/-- Run a sequence of note-store operations from a given store. -/
def runNoteOpsFrom (store : List Note) : List NoteOp → List Note
  | [] => store
  | op :: ops => runNoteOpsFrom (applyNoteOp store op) ops

/-- Run a sequence of note-store operations from the empty store. -/
def runNoteOps (ops : List NoteOp) : List Note :=
  runNoteOpsFrom [] ops

/-- The timestamps of the add operations of a sequence, in order.  Each
one becomes the id of the note it adds. -/
def addTimes : List NoteOp → List String
  | [] => []
  | .add time _ _ _ :: ops => time :: addTimes ops
  | .delete _ :: ops => addTimes ops

/-- `handleQuizComplete` from src/App.tsx: build a `Quiz` from the id,
questions and score and prepend it to the quiz history. -/
def handleQuizComplete (prev : List Quiz) (quizId : String)
    (questions : List Question) (score : Nat) (now : String) : List Quiz :=
  ⟨quizId, questions, now, score⟩ :: prev

/-! ## src/ChatView.tsx — handleSend -/

/-- The streaming loop of `handleSend`: for each arriving chunk, extend the
accumulated text and apply the updated model message to the history. -/
def streamLoop (hist : List ChatMessage) (modelMessageId : String)
    (acc : String) : List String → List ChatMessage
  | [] => hist
  | chunk :: rest =>
      streamLoop
        (handleNewChatMessage hist ⟨modelMessageId, .model, acc ++ chunk⟩)
        modelMessageId (acc ++ chunk) rest

/-- The successful path of `handleSend` from src/ChatView.tsx: emit the
user message, emit the `"..."` placeholder under the fresh model message
id, then run the streaming loop over the chunks the service yields.
`userMessageId` is `Date.now().toString()` and `modelMessageId` is
`(Date.now() + 1).toString()`, both passed in explicitly. -/
def handleSendSuccess (hist : List ChatMessage)
    (userMessageId modelMessageId userText : String)
    (chunks : List String) : List ChatMessage :=
  let h1 := handleNewChatMessage hist ⟨userMessageId, .user, userText⟩
  let h2 := handleNewChatMessage h1 ⟨modelMessageId, .model, "..."⟩
  streamLoop h2 modelMessageId "" chunks

/-- The failing path of `handleSend`: the stream throws after delivering
`chunks`; the `catch` block applies one more model message whose id is a
fresh `(Date.now() + 1).toString()` and whose text is
`` `Error: ${errorMessage}` ``. -/
def handleSendError (hist : List ChatMessage)
    (userMessageId modelMessageId userText : String)
    (chunks : List String) (errorId errorMessage : String) :
    List ChatMessage :=
  handleNewChatMessage
    (handleSendSuccess hist userMessageId modelMessageId userText chunks)
    ⟨errorId, .model, "Error: " ++ errorMessage⟩

/-- The message with the given id visible in a history, if any. -/
def visibleText (hist : List ChatMessage) (id : String) : Option String :=
  (hist.find? (fun m => m.id == id)).map (fun m => m.text)

/-- Number of visible messages carrying the given id. -/
def countId (hist : List ChatMessage) (id : String) : Nat :=
  (hist.filter (fun m => m.id == id)).length

/-! ## src/NoteUploader.tsx (QuizView) — quiz-taking state machine -/

/-- The `QuizView` component state the quiz-taking claims depend on
(questions are fixed after the successful fetch). -/
structure QuizState where
  questions : List Question
  currentQuestionIndex : Nat
  selectedAnswers : List (Option Int)
  isFinished : Bool
  score : Nat
  deriving Repr, DecidableEq

/-- State of `QuizView` right after `fetchQuiz` succeeds: answers all
`null`, first question shown, score 0, not finished. -/
def initQuizState (questions : List Question) : QuizState :=
  ⟨questions, 0, List.replicate questions.length none, false, 0⟩

/-- The scoring loop inside `handleNext`:
`if (selectedAnswers[i] === questions[i].correctAnswerIndex) finalScore++`.
`selectedAnswers[i]` is `null` (`none`) or a number; `null === n` and an
out-of-range access are both false under `===`. -/
def answerMatches (sel : List (Option Int)) (i : Nat) (q : Question) : Bool :=
  match sel[i]? with
  | some (some a) => a == q.correctAnswerIndex
  | _ => false

/-- Helper of `computeScore`: fold over the questions carrying the index. -/
def computeScoreAux (sel : List (Option Int)) : List Question → Nat → Nat
  | [], _ => 0
  | q :: rest, i =>
      (if answerMatches sel i q then 1 else 0) + computeScoreAux sel rest (i + 1)

/-- The final score computed by the scoring loop of `handleNext`. -/
def computeScore (questions : List Question) (sel : List (Option Int)) : Nat :=
  computeScoreAux sel questions 0

/-- A user interaction with `QuizView` after loading succeeded:
clicking an option, clicking Next/Finish (which carries the wall-clock
instant used for the new quiz id and `createdAt`), or clicking
Review Answers on the finished screen. -/
inductive QuizEvent where
  | selectAnswer (optionIndex : Int)
  | next (time : String)
  | review
  deriving Repr, DecidableEq

/-- One step of the quiz-taking UI, acting on the `QuizView` state and the
app-level quiz history (`onQuizComplete` = `handleQuizComplete`).
`selectAnswer` is `handleSelectAnswer` (a no-op when finished);
`next` is `handleNext`; `review` is the Review Answers button, rendered
only on the finished screen. -/
def quizStep (s : QuizState) (hist : List Quiz) :
    QuizEvent → QuizState × List Quiz
  | .selectAnswer optionIndex =>
      if s.isFinished then (s, hist)
      else
        ({ s with selectedAnswers :=
            s.selectedAnswers.set s.currentQuestionIndex (some optionIndex) },
         hist)
  | .next time =>
      if s.currentQuestionIndex < s.questions.length - 1 then
        ({ s with currentQuestionIndex := s.currentQuestionIndex + 1 }, hist)
      else
        let finalScore := computeScore s.questions s.selectedAnswers
        ({ s with score := finalScore, isFinished := true },
         handleQuizComplete hist time s.questions finalScore time)
  | .review =>
      if s.isFinished then
        ({ s with isFinished := false, currentQuestionIndex := 0 }, hist)
      else (s, hist)

/-- Run a sequence of quiz events. -/
def quizRun (s : QuizState) (hist : List Quiz) :
    List QuizEvent → QuizState × List Quiz
  | [] => (s, hist)
  | e :: es =>
      let (s', hist') := quizStep s hist e
      quizRun s' hist' es

/-! ## Concrete sample data used by witnesses and counterexamples -/

/-- A note whose context blob comfortably exceeds the 50-character
threshold. -/
def sampleNote : Note :=
  ⟨"2024-01-01T00:00:00.000Z", "A",
   "xxxxxxxxxxxxxxxxxxxxxxxxxxxxxxxxxxxxxxxxxxxxxxxxxxxxxxxxxxxx",
   "2024-01-01T00:00:00.000Z", true⟩

/-- A service reply violating every bound the spec promises: one question
instead of five, two options instead of four, index 7 out of range. -/
def badQuestion : Question := ⟨"q", ["a", "b"], 7⟩

/-- Helper: exactly when `generateQuizFromNotes` succeeds, and with what. -/
theorem generateQuiz_ok_iff (notes : List Note) (svc : SvcOutcome)
    (qs : List Question) :
    (generateQuizFromNotes notes svc).result = .ok qs ↔
      ¬ (jsTrim (allNotesContent notes)).length < 50 ∧
        svc = .parsed (some qs) ∧ qs ≠ [] := by
  by_cases hlen : (jsTrim (allNotesContent notes)).length < 50
  · simp [generateQuizFromNotes, if_pos hlen, hlen]
  · simp only [generateQuizFromNotes, if_neg hlen]
    rcases svc with _ | (_ | qs')
    · simp [quizTryBody, hlen]
    · simp [quizTryBody, hlen]
    · rcases qs' with _ | ⟨q, rest⟩
      · simp [quizTryBody, hlen]
      · simp [quizTryBody, hlen]
        intro h
        simp [← h]

/-! ## C2 — the 50-character threshold -/

/-- C2. For every list of notes whose concatenated context blob has a
trimmed length below 50 characters, `generateQuizFromNotes` fails with the
"not enough content" error and does not invoke the external service; for
blobs of trimmed length at least 50 the external service is called. -/
theorem generateQuiz_threshold (notes : List Note) (svc : SvcOutcome) :
    ((jsTrim (allNotesContent notes)).length < 50 →
      generateQuizFromNotes notes svc = ⟨.error notEnoughMsg, false⟩) ∧
    (50 ≤ (jsTrim (allNotesContent notes)).length →
      (generateQuizFromNotes notes svc).calledService = true) := by
  constructor
  · intro h
    simp [generateQuizFromNotes, if_pos h]
  · intro h
    have h' : ¬ (jsTrim (allNotesContent notes)).length < 50 := by omega
    simp only [generateQuizFromNotes, if_neg h']
    cases quizTryBody svc <;> rfl

/-- Witness for `generateQuiz_threshold`: the empty note list (blob of
trimmed length 0) fails fast, and `sampleNote` (blob long enough) reaches
the service. -/
theorem generateQuiz_threshold_witness :
    generateQuizFromNotes [] .throws = ⟨.error notEnoughMsg, false⟩ ∧
    (generateQuizFromNotes [sampleNote] .throws).calledService = true :=
  ⟨(generateQuiz_threshold [] .throws).1 (by decide),
   (generateQuiz_threshold [sampleNote] .throws).2 (by decide)⟩

/-! ## C3 — empty question collections are failures, but the surfaced
error is the generic one: the inner "AI failed to generate quiz questions"
throw sits inside the `try` block and is swallowed by the `catch`. -/

/-- C3 counterexample. With enough note content and a service reply whose
`questions` array is empty, `generateQuizFromNotes` does fail — but the
error it throws is the generic "Failed to generate quiz from AI. ..."
message, not "AI failed to generate quiz questions": the inner throw is
caught by the enclosing `catch` and re-wrapped. -/
theorem quizEmpty_error_counterexample :
    (generateQuizFromNotes [sampleNote] (.parsed (some []))).result
      = .error genericFailMsg ∧
    genericFailMsg ≠ aiFailedMsg := by
  constructor
  · decide
  · decide

/-- C3 amended. `generateQuizFromNotes` never returns an empty question
sequence: a success carries a nonempty list, and a missing or empty
parsed `questions` collection makes the call fail — with the generic
wrapped error message, since the "AI failed to generate quiz questions"
throw is caught by the surrounding handler. -/
theorem quiz_never_empty (notes : List Note) (svc : SvcOutcome) :
    (∀ qs, (generateQuizFromNotes notes svc).result = .ok qs → qs ≠ []) ∧
    (50 ≤ (jsTrim (allNotesContent notes)).length →
      (svc = .parsed none ∨ svc = .parsed (some [])) →
      (generateQuizFromNotes notes svc).result = .error genericFailMsg) := by
  constructor
  · intro qs h
    exact ((generateQuiz_ok_iff notes svc qs).mp h).2.2
  · intro h hsvc
    have h' : ¬ (jsTrim (allNotesContent notes)).length < 50 := by omega
    rcases hsvc with h₁ | h₁ <;>
      simp [generateQuizFromNotes, if_neg h', h₁, quizTryBody]

/-- Witness for `quiz_never_empty` at concrete inputs. -/
theorem quiz_never_empty_witness :
    ([badQuestion] : List Question) ≠ [] ∧
    (generateQuizFromNotes [sampleNote] (.parsed none)).result
      = .error genericFailMsg :=
  ⟨(quiz_never_empty [sampleNote] (.parsed (some [badQuestion]))).1
      [badQuestion] (by decide),
   (quiz_never_empty [sampleNote] (.parsed none)).2 (by decide) (.inl rfl)⟩

/-! ## C1 — the 5-question / 4-option / index-bound shape -/

/-- C1 counterexample. The code contains no guard on the number of
questions, the number of options, or the range of `correctAnswerIndex`:
with enough note content, a service reply holding a single question with
two options and `correctAnswerIndex = 7` is returned successfully as-is,
violating every bound the claim states. -/
theorem quizShape_counterexample :
    (generateQuizFromNotes [sampleNote] (.parsed (some [badQuestion]))).result
      = .ok [badQuestion] ∧
    [badQuestion].length ≠ 5 ∧
    badQuestion.options.length ≠ 4 ∧
    ¬ badQuestion.correctAnswerIndex < (badQuestion.options.length : Int) := by
  refine ⟨by decide, by decide, by decide, by decide⟩

/-- C1 amended. A successful `generateQuizFromNotes` call returns the
service's parsed `questions` list verbatim, guarded only by nonemptiness:
the request's schema and prompt ask for 5 questions of 4 options each with
an in-range `correctAnswerIndex`, but nothing on the application side
checks those bounds, so the shape guarantee holds only if the external
service honours the request. -/
theorem quiz_success_verbatim (notes : List Note) (svc : SvcOutcome)
    (qs : List Question)
    (h : (generateQuizFromNotes notes svc).result = .ok qs) :
    qs ≠ [] ∧ svc = .parsed (some qs) := by
  have h' := (generateQuiz_ok_iff notes svc qs).mp h
  exact ⟨h'.2.2, h'.2.1⟩

/-- Witness for `quiz_success_verbatim`. -/
theorem quiz_success_verbatim_witness :
    ([badQuestion] : List Question) ≠ [] ∧
    (SvcOutcome.parsed (some [badQuestion]))
      = .parsed (some [badQuestion]) :=
  quiz_success_verbatim [sampleNote] (.parsed (some [badQuestion]))
    [badQuestion] (by decide)

/-! ## C10 — deleteNote removes exactly the matching notes -/

/-- C10. `deleteNote` removes exactly the notes carrying the given id:
no survivor has that id, every non-matching note survives, the survivors
form a sublist of the store (same notes, same relative order), and a store
holding no note with the id is left unchanged. -/
theorem deleteNote_spec (store : List Note) (noteId : String) :
    (∀ n ∈ deleteNote store noteId, n.id ≠ noteId) ∧
    (∀ n ∈ store, n.id ≠ noteId → n ∈ deleteNote store noteId) ∧
    List.Sublist (deleteNote store noteId) store ∧
    ((∀ n ∈ store, n.id ≠ noteId) → deleteNote store noteId = store) := by
  refine ⟨?_, ?_, List.filter_sublist store, ?_⟩
  · intro n hn
    have := (List.mem_filter.mp hn).2
    simpa using this
  · intro n hn hne
    exact List.mem_filter.mpr ⟨hn, by simpa using hne⟩
  · intro h
    apply List.filter_eq_self.mpr
    intro n hn
    simpa using h n hn

/-- Witness for `deleteNote_spec`: deleting an absent id leaves a concrete
store unchanged, and a non-matching note survives. -/
theorem deleteNote_spec_witness :
    deleteNote [sampleNote] "other" = [sampleNote] ∧
    sampleNote ∈ deleteNote [sampleNote] "other" :=
  ⟨(deleteNote_spec [sampleNote] "other").2.2.2 (by decide),
   (deleteNote_spec [sampleNote] "other").2.1 sampleNote (by decide)
     (by decide)⟩

/-! ## C4 — insert-or-replace-in-place semantics of handleNewChatMessage -/

/-- Helper: `findIdx?` on a list that ends in its first match. -/
theorem findIdx_append_single {α : Type} (l : List α) (p : α → Bool) (a : α)
    (h : ∀ x ∈ l, p x = false) (hp : p a = true) :
    (l ++ [a]).findIdx? p = some l.length := by
  induction l with
  | nil => simp [hp]
  | cons x xs ih =>
      have hx : p x = false := h x (List.mem_cons_self x xs)
      simp only [List.cons_append, List.findIdx?_cons, hx, Bool.false_eq_true,
        if_false, List.findIdx?_start_succ]
      rw [ih fun y hy => h y (List.mem_cons_of_mem x hy)]
      simp [Nat.add_comm]

/-- Helper: an absent id makes `handleNewChatMessage` append. -/
theorem handleNewChatMessage_append_of_absent (prev : List ChatMessage)
    (m : ChatMessage) (h : ∀ x ∈ prev, x.id ≠ m.id) :
    handleNewChatMessage prev m = prev ++ [m] := by
  have hnone : prev.findIdx? (fun x => x.id == m.id) = none :=
    List.findIdx?_eq_none_iff.mpr fun x hx => by
      simpa using h x hx
  simp [handleNewChatMessage, hnone]

/-- Helper: when the only message carrying the incoming id sits at the
end, `handleNewChatMessage` replaces that last element. -/
theorem handleNewChatMessage_replace_last (base : List ChatMessage)
    (old new : ChatMessage) (h : ∀ x ∈ base, x.id ≠ new.id)
    (hid : old.id = new.id) :
    handleNewChatMessage (base ++ [old]) new = base ++ [new] := by
  have hfind : (base ++ [old]).findIdx? (fun x => x.id == new.id)
      = some base.length := by
    apply findIdx_append_single
    · intro x hx
      simpa using h x hx
    · simp [hid]
  simp [handleNewChatMessage, hfind]

/-- Helper: `handleNewChatMessage` introduces no message other than its
argument. -/
theorem mem_of_mem_handleNewChatMessage {x : ChatMessage}
    {prev : List ChatMessage} {m : ChatMessage}
    (hx : x ∈ handleNewChatMessage prev m) : x ∈ prev ∨ x = m := by
  unfold handleNewChatMessage at hx
  rcases hfind : prev.findIdx? (fun y => y.id == m.id) with _ | i <;>
      rw [hfind] at hx
  · rcases List.mem_append.mp hx with h | h
    · exact .inl h
    · exact .inr (List.mem_singleton.mp h)
  · exact List.mem_or_eq_of_mem_set hx

/-- Helper: a list with no matching id contributes nothing to `countId`. -/
theorem filter_id_eq_nil (l : List ChatMessage) (id : String)
    (h : ∀ x ∈ l, x.id ≠ id) :
    l.filter (fun x => x.id == id) = [] :=
  List.filter_eq_nil_iff.mpr fun x hx => by simpa using h x hx

/-- C4. `handleNewChatMessage` appends the message when its id is absent,
replaces the first message with that id in place (at the found index) when
present, and applying two messages with the same fresh id in sequence
leaves exactly one visible message for the id — the latest one. -/
theorem handleNewChatMessage_spec (prev : List ChatMessage)
    (m m' : ChatMessage) :
    ((∀ x ∈ prev, x.id ≠ m.id) →
      handleNewChatMessage prev m = prev ++ [m]) ∧
    (∀ i, prev.findIdx? (fun x => x.id == m.id) = some i →
      handleNewChatMessage prev m = prev.set i m) ∧
    ((∀ x ∈ prev, x.id ≠ m.id) → m'.id = m.id →
      handleNewChatMessage (handleNewChatMessage prev m) m' = prev ++ [m'] ∧
      countId (handleNewChatMessage (handleNewChatMessage prev m) m') m.id
        = 1) := by
  refine ⟨handleNewChatMessage_append_of_absent prev m, ?_, ?_⟩
  · intro i hi
    simp [handleNewChatMessage, hi]
  · intro h hm'
    rw [handleNewChatMessage_append_of_absent prev m h]
    have h' : ∀ x ∈ prev, x.id ≠ m'.id := fun x hx => by
      rw [hm']; exact h x hx
    rw [handleNewChatMessage_replace_last prev m m' h' hm'.symm]
    refine ⟨rfl, ?_⟩
    simp only [countId, List.filter_append, filter_id_eq_nil prev m.id h]
    simp [hm']

/-- Witness for `handleNewChatMessage_spec`: a concrete two-step stream
update under one id. -/
theorem handleNewChatMessage_spec_witness :
    handleNewChatMessage
      (handleNewChatMessage [⟨"u1", .user, "hi"⟩] ⟨"m1", .model, "Hel"⟩)
      ⟨"m1", .model, "Hello"⟩
      = [⟨"u1", .user, "hi"⟩, ⟨"m1", .model, "Hello"⟩] ∧
    countId
      (handleNewChatMessage
        (handleNewChatMessage [⟨"u1", .user, "hi"⟩] ⟨"m1", .model, "Hel"⟩)
        ⟨"m1", .model, "Hello"⟩) "m1" = 1 :=
  (handleNewChatMessage_spec [⟨"u1", .user, "hi"⟩] ⟨"m1", .model, "Hel"⟩
      ⟨"m1", .model, "Hello"⟩).2.2
    (by decide) (by decide)

/-! ## C5 — stream fragments concatenate into a single model message -/

/-- Concatenation of stream fragments in emission order (the spec's
notion of the expected final text). -/
def concatChunks : List String → String
  | [] => ""
  | c :: cs => c ++ concatChunks cs

/-- Helper: the streaming loop keeps the model message at the end of the
history and leaves it carrying the accumulated text — the initial text for
an empty stream, `acc` followed by the remaining fragments otherwise. -/
theorem streamLoop_shape (base : List ChatMessage) (mid : String)
    (h : ∀ x ∈ base, x.id ≠ mid) (chunks : List String) :
    ∀ t acc : String,
    streamLoop (base ++ [⟨mid, .model, t⟩]) mid acc chunks
      = base ++ [⟨mid, .model,
          if chunks = [] then t else acc ++ concatChunks chunks⟩] := by
  induction chunks with
  | nil => intro t acc; simp [streamLoop]
  | cons c cs ih =>
      intro t acc
      rw [streamLoop,
        handleNewChatMessage_replace_last base ⟨mid, .model, t⟩
          ⟨mid, .model, acc ++ c⟩ h rfl,
        ih (acc ++ c) (acc ++ c)]
      rcases cs with _ | ⟨c', cs'⟩
      · simp [concatChunks]
      · simp only [concatChunks, if_neg (by simp : ¬ (c :: c' :: cs' = []))]
        simp [String.append_assoc]

/-- Helper: the full successful `handleSend` run with a fresh model
message id produces the prior history, then the user message, then the
single model message. -/
theorem handleSendSuccess_shape (hist : List ChatMessage)
    (uid mid uText : String) (chunks : List String)
    (hmid : ∀ x ∈ hist, x.id ≠ mid) (huid : uid ≠ mid) :
    handleSendSuccess hist uid mid uText chunks
      = handleNewChatMessage hist ⟨uid, .user, uText⟩
          ++ [⟨mid, .model,
                if chunks = [] then "..." else concatChunks chunks⟩] := by
  have h1 : ∀ x ∈ handleNewChatMessage hist ⟨uid, .user, uText⟩,
      x.id ≠ mid := by
    intro x hx
    rcases mem_of_mem_handleNewChatMessage hx with h | h
    · exact hmid x h
    · rw [h]; exact huid
  show streamLoop
      (handleNewChatMessage (handleNewChatMessage hist ⟨uid, .user, uText⟩)
        ⟨mid, .model, "..."⟩) mid "" chunks = _
  rw [handleNewChatMessage_append_of_absent _ ⟨mid, .model, "..."⟩ h1,
    streamLoop_shape _ mid h1 chunks "..." ""]
  rcases chunks with _ | ⟨c, cs⟩
  · rfl
  · simp

/-- C5 counterexample. A stream that completes after emitting zero
fragments leaves the model message holding the `"..."` placeholder, not
the (empty) concatenation of its fragments: the claim's equality fails on
the empty stream. -/
theorem streamConcat_counterexample :
    visibleText (handleSendSuccess [] "u1" "m1" "hi" []) "m1" = some "..." ∧
    ("..." : String) ≠ concatChunks [] := by
  exact ⟨by decide, by decide⟩

/-- C5 amended. For a stream that emits at least one fragment, fragments
are applied in arrival order by concatenation under the single model
message id: afterwards exactly one visible message carries that id and its
text is the concatenation of all fragment texts in emission order (for a
zero-fragment stream the `"..."` placeholder text remains instead). -/
theorem streamConcat_spec (hist : List ChatMessage)
    (uid mid uText : String) (chunks : List String)
    (hmid : ∀ x ∈ hist, x.id ≠ mid) (huid : uid ≠ mid)
    (hch : chunks ≠ []) :
    visibleText (handleSendSuccess hist uid mid uText chunks) mid
      = some (concatChunks chunks) ∧
    countId (handleSendSuccess hist uid mid uText chunks) mid = 1 := by
  have h1 : ∀ x ∈ handleNewChatMessage hist ⟨uid, .user, uText⟩,
      x.id ≠ mid := by
    intro x hx
    rcases mem_of_mem_handleNewChatMessage hx with h | h
    · exact hmid x h
    · rw [h]; exact huid
  rw [handleSendSuccess_shape hist uid mid uText chunks hmid huid,
    if_neg hch]
  constructor
  · have hfind :
        (handleNewChatMessage hist ⟨uid, .user, uText⟩).find?
          (fun m => m.id == mid) = none :=
      List.find?_eq_none.mpr fun x hx => by simpa using h1 x hx
    simp [visibleText, List.find?_append, hfind]
  · simp [countId, List.filter_append,
      filter_id_eq_nil _ mid h1]

/-- Witness for `streamConcat_spec`: the spec's own scenario, fragments
`["Hel", "lo"]` under id `"m1"`. -/
theorem streamConcat_spec_witness :
    visibleText (handleSendSuccess [] "u1" "m1" "hi" ["Hel", "lo"]) "m1"
      = some "Hello" ∧
    countId (handleSendSuccess [] "u1" "m1" "hi" ["Hel", "lo"]) "m1" = 1 :=
  streamConcat_spec [] "u1" "m1" "hi" ["Hel", "lo"]
    (by intro x hx; cases hx) (by decide) (by decide)

/-! ## C9 — mid-stream failure keeps the partial text and appends an
"Error:" message -/

/-- C9. If the stream throws after delivering some fragments, the partial
text already concatenated stays visible under the model message id — the
`"..."` placeholder if nothing had arrived yet — and one additional model
message whose text is the error prefixed with `"Error: "` is appended at
the end of the history. -/
theorem streamError_spec (hist : List ChatMessage)
    (uid mid uText : String) (chunks : List String) (errId errMsg : String)
    (hmid : ∀ x ∈ hist, x.id ≠ mid) (huid : uid ≠ mid)
    (herr : ∀ x ∈ hist, x.id ≠ errId) (huerr : uid ≠ errId)
    (hmerr : mid ≠ errId) :
    handleSendError hist uid mid uText chunks errId errMsg
      = handleSendSuccess hist uid mid uText chunks
          ++ [⟨errId, .model, "Error: " ++ errMsg⟩] ∧
    visibleText (handleSendError hist uid mid uText chunks errId errMsg) mid
      = some (if chunks = [] then "..." else concatChunks chunks) ∧
    visibleText (handleSendError hist uid mid uText chunks errId errMsg)
      errId = some ("Error: " ++ errMsg) := by
  have h1 : ∀ x ∈ handleNewChatMessage hist ⟨uid, .user, uText⟩,
      x.id ≠ mid := by
    intro x hx
    rcases mem_of_mem_handleNewChatMessage hx with h | h
    · exact hmid x h
    · rw [h]; exact huid
  have h1err : ∀ x ∈ handleNewChatMessage hist ⟨uid, .user, uText⟩,
      x.id ≠ errId := by
    intro x hx
    rcases mem_of_mem_handleNewChatMessage hx with h | h
    · exact herr x h
    · rw [h]; exact huerr
  have hshape := handleSendSuccess_shape hist uid mid uText chunks hmid huid
  have hfreshErr : ∀ x ∈ handleSendSuccess hist uid mid uText chunks,
      x.id ≠ errId := by
    rw [hshape]
    intro x hx
    rcases List.mem_append.mp hx with h | h
    · exact h1err x h
    · rw [List.mem_singleton.mp h]
      exact hmerr
  have hmain : handleSendError hist uid mid uText chunks errId errMsg
      = handleSendSuccess hist uid mid uText chunks
          ++ [⟨errId, .model, "Error: " ++ errMsg⟩] :=
    handleNewChatMessage_append_of_absent _ _ hfreshErr
  refine ⟨hmain, ?_, ?_⟩
  · rw [hmain, hshape]
    have hfind :
        (handleNewChatMessage hist ⟨uid, .user, uText⟩).find?
          (fun m => m.id == mid) = none :=
      List.find?_eq_none.mpr fun x hx => by simpa using h1 x hx
    simp [visibleText, List.find?_append, hfind]
  · rw [hmain, hshape]
    have hfind :
        (handleNewChatMessage hist ⟨uid, .user, uText⟩).find?
          (fun m => m.id == errId) = none :=
      List.find?_eq_none.mpr fun x hx => by simpa using h1err x hx
    simp [visibleText, List.find?_append, hfind, hmerr]

/-- Witness for `streamError_spec`: two fragments arrive, then the stream
fails. -/
theorem streamError_spec_witness :
    visibleText
      (handleSendError [] "u1" "m1" "hi" ["Hel", "lo"] "e1" "boom") "m1"
      = some (if (["Hel", "lo"] : List String) = [] then "..."
              else concatChunks ["Hel", "lo"]) ∧
    visibleText
      (handleSendError [] "u1" "m1" "hi" ["Hel", "lo"] "e1" "boom") "e1"
      = some ("Error: " ++ "boom") :=
  ⟨(streamError_spec [] "u1" "m1" "hi" ["Hel", "lo"] "e1" "boom"
      (by intro x hx; cases hx) (by decide) (by intro x hx; cases hx)
      (by decide) (by decide)).2.1,
   (streamError_spec [] "u1" "m1" "hi" ["Hel", "lo"] "e1" "boom"
      (by intro x hx; cases hx) (by decide) (by intro x hx; cases hx)
      (by decide) (by decide)).2.2⟩

/-! ## C6 — the computed score counts correct answers and is bounded -/

/-- Helper: the scoring loop never counts more than one point per
question. -/
theorem computeScoreAux_le (sel : List (Option Int)) (qs : List Question) :
    ∀ i, computeScoreAux sel qs i ≤ qs.length := by
  induction qs with
  | nil => intro i; simp [computeScoreAux]
  | cons q rest ih =>
      intro i
      have := ih (i + 1)
      unfold computeScoreAux
      split <;> simp <;> omega

/-- Helper: when every question's recorded answer is its correct index,
the scoring loop counts every question. -/
theorem computeScoreAux_all_correct (qs : List Question)
    (sel : List (Option Int)) :
    ∀ i, (∀ k (hk : k < qs.length),
        sel[i + k]? = some (some ((qs.get ⟨k, hk⟩).correctAnswerIndex))) →
    computeScoreAux sel qs i = qs.length := by
  induction qs with
  | nil => intro i _; simp [computeScoreAux]
  | cons q rest ih =>
      intro i h
      have h0 : sel[i]? = some (some q.correctAnswerIndex) := by
        have := h 0 (by simp)
        simpa using this
      have hmatch : answerMatches sel i q = true := by
        simp [answerMatches, h0]
      have hrest : computeScoreAux sel rest (i + 1) = rest.length := by
        apply ih (i + 1)
        intro k hk
        have := h (k + 1) (by simpa using Nat.succ_lt_succ hk)
        have harith : i + (k + 1) = i + 1 + k := by omega
        rw [harith] at this
        simpa using this
      unfold computeScoreAux
      rw [hmatch, hrest]
      simp [Nat.add_comm]

/-- C6. The score `handleNext` computes on the last question counts
exactly the questions whose selected answer equals their
`correctAnswerIndex`, so `0 ≤ score ≤ questions.length`; and stepping
`Finish` with every answer correct lands in the finished state with score
equal to the question count. -/
theorem quizScore_spec (qs : List Question) (sel : List (Option Int))
    (s : QuizState) (hist : List Quiz) (t : String) :
    0 ≤ computeScore qs sel ∧
    computeScore qs sel ≤ qs.length ∧
    computeScore qs (qs.map fun q => some q.correctAnswerIndex)
      = qs.length ∧
    (¬ s.currentQuestionIndex < s.questions.length - 1 →
      s.selectedAnswers
          = s.questions.map (fun q => some q.correctAnswerIndex) →
      (quizStep s hist (.next t)).1.isFinished = true ∧
      (quizStep s hist (.next t)).1.score = s.questions.length) := by
  have hall : computeScore qs (qs.map fun q => some q.correctAnswerIndex)
      = qs.length := by
    apply computeScoreAux_all_correct
    intro k hk
    simp [List.getElem?_map, List.getElem?_eq_getElem hk]
  refine ⟨Nat.zero_le _, computeScoreAux_le sel qs 0, hall, ?_⟩
  intro hlast hsel
  have hall' : computeScore s.questions s.selectedAnswers
      = s.questions.length := by
    rw [hsel]
    apply computeScoreAux_all_correct
    intro k hk
    simp [List.getElem?_map, List.getElem?_eq_getElem hk]
  simp [quizStep, if_neg hlast, hall']

/-- Witness for `quizScore_spec`: a one-question quiz answered correctly
finishes with full score. -/
theorem quizScore_spec_witness :
    (quizStep ⟨[⟨"q", ["a", "b", "c", "d"], 0⟩], 0, [some 0], false, 0⟩ []
        (.next "t")).1.isFinished = true ∧
    (quizStep ⟨[⟨"q", ["a", "b", "c", "d"], 0⟩], 0, [some 0], false, 0⟩ []
        (.next "t")).1.score
      = ([⟨"q", ["a", "b", "c", "d"], 0⟩] : List Question).length :=
  (quizScore_spec [⟨"q", ["a", "b", "c", "d"], 0⟩] [some 0]
      ⟨[⟨"q", ["a", "b", "c", "d"], 0⟩], 0, [some 0], false, 0⟩ [] "t").2.2.2
    (by decide) (by decide)

/-! ## C7 — the Review Answers path re-finalizes the quiz -/

/-- C7 failing input. On a one-question quiz: answer, press Finish (the
quiz is finalized and appended to history), press Review Answers, press
Finish again — `handleNext` runs its completion branch a second time and
`onQuizComplete` appends a second `Quiz` (under a fresh id and creation
time) for the same quiz-taking session.  The history holds 2 entries,
although the spec says a quiz is finalized exactly once. -/
theorem quizDoubleFinalize :
    (quizRun (initQuizState [⟨"q", ["a", "b", "c", "d"], 0⟩]) []
        [.selectAnswer 0, .next "t1"]).2.length = 1 ∧
    (quizRun (initQuizState [⟨"q", ["a", "b", "c", "d"], 0⟩]) []
        [.selectAnswer 0, .next "t1", .review]).1.isFinished = false ∧
    (quizRun (initQuizState [⟨"q", ["a", "b", "c", "d"], 0⟩]) []
        [.selectAnswer 0, .next "t1", .review, .next "t2"]).2.length
      = 2 := by
  refine ⟨by decide, by decide, by decide⟩

/-! ## C8 — note-id uniqueness -/

/-- C8 counterexample. `addNote` derives the id from
`new Date().toISOString()`; two adds that fall in the same millisecond
carry the same timestamp, and the store then holds two notes with the
same id. -/
theorem noteIds_counterexample :
    ¬ ((runNoteOps
        [.add "2024-01-01T00:00:00.000Z" "A" "x" true,
         .add "2024-01-01T00:00:00.000Z" "B" "y" true]).map
          (fun n => n.id)).Nodup := by
  decide

/-- Helper: the ids in the store after running operations form a sublist
of the starting ids followed by the add-operation timestamps. -/
theorem runNoteOpsFrom_ids_sublist (ops : List NoteOp) :
    ∀ store : List Note,
    List.Sublist ((runNoteOpsFrom store ops).map (fun n => n.id))
      (store.map (fun n => n.id) ++ addTimes ops) := by
  induction ops with
  | nil =>
      intro store
      simp only [runNoteOpsFrom, addTimes, List.append_nil]
      exact List.Sublist.refl _
  | cons op ops ih =>
      intro store
      cases op with
      | add time title content ty =>
          have h := ih (store ++ [⟨time, title, content, time, ty⟩])
          simpa [runNoteOpsFrom, applyNoteOp, addNote, addTimes,
            List.map_append, List.append_assoc] using h
      | delete noteId =>
          have h := ih (deleteNote store noteId)
          refine h.trans ?_
          simp only [runNoteOpsFrom, applyNoteOp, addTimes]
          exact (((List.filter_sublist store).map _).append_right _)

/-- C8 amended. For every sequence of add and delete operations from the
empty store in which all add operations carry pairwise-distinct
timestamps (distinct `toISOString` values), no two notes in the store
ever share an id; uniqueness is not otherwise enforced by the code. -/
theorem noteIds_unique (ops : List NoteOp)
    (h : (addTimes ops).Nodup) :
    ((runNoteOps ops).map (fun n => n.id)).Nodup := by
  have h0 := runNoteOpsFrom_ids_sublist ops []
  simp only [List.map_nil, List.nil_append] at h0
  exact h0.nodup h

/-- Witness for `noteIds_unique`: two adds at distinct instants. -/
theorem noteIds_unique_witness :
    ((runNoteOps
        [.add "2024-01-01T00:00:00.000Z" "A" "x" true,
         .add "2024-01-01T00:00:00.001Z" "B" "y" true]).map
          (fun n => n.id)).Nodup :=
  noteIds_unique
    [.add "2024-01-01T00:00:00.000Z" "A" "x" true,
     .add "2024-01-01T00:00:00.001Z" "B" "y" true]
    (by decide)

end Note2MCQ
